import Mathlib

/-!
Verification of the asmjit operand layer.

The definitions below are a shallow embedding of `src/asmjit/core/operand.h`
and `src/asmjit/core/callconv.cpp`.  An operand is the four 32-bit words of
`Operand_::_p32`; machine integers are natural numbers reduced modulo `2 ^ 32`
(or `2 ^ 64`) exactly where the C++ code truncates, and signed values are
recovered by explicit two's-complement reinterpretation.
-/

namespace Asmjit

/-- The all-ones 32-bit mask, `0xFFFFFFFF`. -/
def mask32 : Nat := 0xFFFFFFFF

/-- 32-bit bitwise complement (`~x` on a `uint32_t`): xor with the all-ones mask. -/
def not32 (x : Nat) : Nat := mask32 ^^^ (x % 2 ^ 32)

/-- 32-bit left shift with truncation (`x << n` on a `uint32_t`). -/
def shl32 (x n : Nat) : Nat := (x <<< n) % 2 ^ 32

/-- Reinterpret a 64-bit word as a signed two's-complement integer (`int64_t`). -/
def toInt64 (n : Nat) : Int :=
  if n % 2 ^ 64 < 2 ^ 63 then ((n % 2 ^ 64 : Nat) : Int)
  else ((n % 2 ^ 64 : Nat) : Int) - 2 ^ 64

/-- Reinterpret a 32-bit word as a signed two's-complement integer (`int32_t`). -/
def toInt32 (n : Nat) : Int :=
  if n % 2 ^ 32 < 2 ^ 31 then ((n % 2 ^ 32 : Nat) : Int)
  else ((n % 2 ^ 32 : Nat) : Int) - 2 ^ 32

/-- Two's-complement encoding of a signed integer as a 64-bit word (`uint64_t(v)`). -/
def toUInt64 (v : Int) : Nat := (v % (2 ^ 64 : Int)).toNat

namespace IntUtils

/-- Modelled from the spec: `IntUtils::maskFromBool<uint32_t>` (intutils.h is not in
src/); per the documented lossy-write policy of `Mem::setOffset` it is the all-ones
32-bit mask when the condition holds and zero otherwise. -/
def maskFromBool (b : Bool) : Nat := if b then mask32 else 0

/-- Modelled from the spec: `IntUtils::isInt8` (intutils.h is not in src/); a pure
range predicate on the stored signed 64-bit value. -/
def isInt8 (v : Int) : Bool := decide (-128 ≤ v ∧ v ≤ 127)

/-- Modelled from the spec: `IntUtils::isInt16` (intutils.h is not in src/); a pure
range predicate on the stored signed 64-bit value. -/
def isInt16 (v : Int) : Bool := decide (-32768 ≤ v ∧ v ≤ 32767)

/-- Modelled from the spec: `IntUtils::isInt32` (intutils.h is not in src/); a pure
range predicate on the stored signed 64-bit value. -/
def isInt32 (v : Int) : Bool := decide (-2147483648 ≤ v ∧ v ≤ 2147483647)

end IntUtils

/-- The raw 16-byte operand record: the four 32-bit words of `Operand_::_p32`.
Word 0 is the signature, word 1 the id (or memory base / high address word),
words 2 and 3 are kind-dependent payload. -/
structure Operand_ where
  w0 : Nat
  w1 : Nat
  w2 : Nat
  w3 : Nat
deriving DecidableEq, Repr

namespace Operand_

/-- `Operand_::kOpNone`. -/
def kOpNone : Nat := 0
/-- `Operand_::kOpReg`. -/
def kOpReg : Nat := 1
/-- `Operand_::kOpMem`. -/
def kOpMem : Nat := 2
/-- `Operand_::kOpImm`. -/
def kOpImm : Nat := 3
/-- `Operand_::kOpLabel`. -/
def kOpLabel : Nat := 4

/-- `kSignatureOpShift`. -/
def kSignatureOpShift : Nat := 0
/-- `kSignatureOpBits`. -/
def kSignatureOpBits : Nat := 0x07
/-- `kSignatureOpMask`. -/
def kSignatureOpMask : Nat := kSignatureOpBits <<< kSignatureOpShift

/-- `kSignatureRegTypeShift`. -/
def kSignatureRegTypeShift : Nat := 3
/-- `kSignatureRegTypeBits`. -/
def kSignatureRegTypeBits : Nat := 0x1F
/-- `kSignatureRegTypeMask`. -/
def kSignatureRegTypeMask : Nat := kSignatureRegTypeBits <<< kSignatureRegTypeShift

/-- `kSignatureRegGroupShift`. -/
def kSignatureRegGroupShift : Nat := 8
/-- `kSignatureRegGroupBits`. -/
def kSignatureRegGroupBits : Nat := 0x0F
/-- `kSignatureRegGroupMask`. -/
def kSignatureRegGroupMask : Nat := kSignatureRegGroupBits <<< kSignatureRegGroupShift

/-- `kSignatureMemBaseTypeShift`. -/
def kSignatureMemBaseTypeShift : Nat := 3
/-- `kSignatureMemBaseTypeBits`. -/
def kSignatureMemBaseTypeBits : Nat := 0x1F
/-- `kSignatureMemBaseTypeMask`. -/
def kSignatureMemBaseTypeMask : Nat := kSignatureMemBaseTypeBits <<< kSignatureMemBaseTypeShift

/-- `kSignatureMemIndexTypeShift`. -/
def kSignatureMemIndexTypeShift : Nat := 8
/-- `kSignatureMemIndexTypeBits`. -/
def kSignatureMemIndexTypeBits : Nat := 0x1F
/-- `kSignatureMemIndexTypeMask`. -/
def kSignatureMemIndexTypeMask : Nat := kSignatureMemIndexTypeBits <<< kSignatureMemIndexTypeShift

/-- `kSignatureMemBaseIndexShift`. -/
def kSignatureMemBaseIndexShift : Nat := 3
/-- `kSignatureMemBaseIndexBits`. -/
def kSignatureMemBaseIndexBits : Nat := 0x3FF

/-- `kSignatureMemAddrTypeShift`. -/
def kSignatureMemAddrTypeShift : Nat := 13
/-- `kSignatureMemAddrTypeBits`. -/
def kSignatureMemAddrTypeBits : Nat := 0x03

/-- `kSignatureMemRegHomeShift`. -/
def kSignatureMemRegHomeShift : Nat := 15
/-- `kSignatureMemRegHomeBits`. -/
def kSignatureMemRegHomeBits : Nat := 0x01
/-- `kSignatureMemRegHomeFlag`. -/
def kSignatureMemRegHomeFlag : Nat := kSignatureMemRegHomeBits <<< kSignatureMemRegHomeShift

/-- `kSignatureSizeShift`. -/
def kSignatureSizeShift : Nat := 24
/-- `kSignatureSizeBits`. -/
def kSignatureSizeBits : Nat := 0xFF

/-- `kPackedIdMin`. -/
def kPackedIdMin : Nat := 0x00000100
/-- `kPackedIdMax`. -/
def kPackedIdMax : Nat := 0xFFFFFFFF
/-- `kPackedIdCount`. -/
def kPackedIdCount : Nat := kPackedIdMax - kPackedIdMin + 1

/-- `Operand_::isPackedId`: `id - kPackedIdMin < kPackedIdCount` on `uint32_t`
(the subtraction wraps modulo `2 ^ 32`). -/
def isPackedId (id : Nat) : Bool := decide ((id + 2 ^ 32 - kPackedIdMin) % 2 ^ 32 < kPackedIdCount)

/-- `Operand_::packId`: `id + kPackedIdMin` on `uint32_t`. -/
def packId (id : Nat) : Nat := (id + kPackedIdMin) % 2 ^ 32

/-- `Operand_::unpackId`: `id - kPackedIdMin` on `uint32_t` (wrapping subtraction). -/
def unpackId (id : Nat) : Nat := (id + 2 ^ 32 - kPackedIdMin) % 2 ^ 32

/-- `Operand_::getSignature`. -/
def getSignature (m : Operand_) : Nat := m.w0

/-- `Operand_::setSignature` (the argument is a `uint32_t`). -/
def setSignature (m : Operand_) (signature : Nat) : Operand_ := { m with w0 := signature % 2 ^ 32 }

/-- `Operand_::hasSignature`. -/
def hasSignature (m : Operand_) (signature : Nat) : Bool := m.w0 == signature

/-- `Operand_::_hasSignatureData`: tests whether the signature has any of `bits` set. -/
def _hasSignatureData (m : Operand_) (bits : Nat) : Bool := (m.w0 &&& bits) != 0

/-- `Operand_::_getSignatureData`: `(signature >> shift) & bits`. -/
def _getSignatureData (m : Operand_) (bits shift : Nat) : Nat := (m.w0 >>> shift) &&& bits

/-- `Operand_::_setSignatureData`:
`signature = (signature & ~(bits << shift)) | (value << shift)` on `uint32_t`. -/
def _setSignatureData (m : Operand_) (value bits shift : Nat) : Operand_ :=
  { m with w0 := (m.w0 &&& not32 (shl32 bits shift)) ||| shl32 value shift }

/-- `Operand_::_addSignatureData`: `signature |= data`. -/
def _addSignatureData (m : Operand_) (data : Nat) : Operand_ := { m with w0 := m.w0 ||| data }

/-- `Operand_::_clearSignatureData`: `signature &= ~(bits << shift)`. -/
def _clearSignatureData (m : Operand_) (bits shift : Nat) : Operand_ :=
  { m with w0 := m.w0 &&& not32 (shl32 bits shift) }

/-- `Operand_::getOp`: the 3-bit operand type tag. -/
def getOp (m : Operand_) : Nat := _getSignatureData m kSignatureOpBits kSignatureOpShift

/-- `Operand_::isNone`: `signature == 0`. -/
def isNone (m : Operand_) : Bool := m.w0 == 0

/-- `Operand_::isReg`. -/
def isReg (m : Operand_) : Bool := getOp m == kOpReg

/-- `Operand_::isMem`. -/
def isMem (m : Operand_) : Bool := getOp m == kOpMem

/-- `Operand_::isImm`. -/
def isImm (m : Operand_) : Bool := getOp m == kOpImm

/-- `Operand_::isLabel`. -/
def isLabel (m : Operand_) : Bool := getOp m == kOpLabel

/-- `Operand_::isPhysReg`: `isReg() && _reg.id < 0xFFU`. -/
def isPhysReg (m : Operand_) : Bool := isReg m && decide (m.w1 < 0xFF)

/-- `Operand_::isVirtReg`: `isReg() && _reg.id > 0xFFU`. -/
def isVirtReg (m : Operand_) : Bool := isReg m && decide (m.w1 > 0xFF)

/-- `Operand_::getSize`. -/
def getSize (m : Operand_) : Nat := _getSignatureData m kSignatureSizeBits kSignatureSizeShift

/-- `Operand_::getId`. -/
def getId (m : Operand_) : Nat := m.w1

/-- The first 8 bytes of the operand, `_p64[0]` (little endian). -/
def _p64_0 (m : Operand_) : Nat := m.w0 ||| (m.w1 <<< 32)

/-- The last 8 bytes of the operand, `_p64[1]` (little endian). -/
def _p64_1 (m : Operand_) : Nat := m.w2 ||| (m.w3 <<< 32)

/-- `Operand_::isEqual`: full 16-byte comparison, `_p64[0]` and `_p64[1]`. -/
def isEqual (a b : Operand_) : Bool := (_p64_0 a == _p64_0 b) && (_p64_1 a == _p64_1 b)

/-- `Operand_::reset`: zero both 64-bit halves. -/
def reset (_m : Operand_) : Operand_ := ⟨0, 0, 0, 0⟩

end Operand_

namespace Operand

open Operand_

/-- `Operand(Globals::Init, p0, p1, p2, p3)`: raw construction from four
`uint32_t` words. -/
def ofWords (p0 p1 p2 p3 : Nat) : Operand_ :=
  ⟨p0 % 2 ^ 32, p1 % 2 ^ 32, p2 % 2 ^ 32, p3 % 2 ^ 32⟩

/-- `Operand()`: the default constructor, `{ kOpNone, 0, 0, 0 }`. -/
def default : Operand_ := ofWords kOpNone 0 0 0

end Operand

namespace Label

open Operand_

/-- `Label::kLabelTag`. -/
def kLabelTag : Nat := 0x1

/-- `Label(uint32_t id)`: `Operand(Globals::Init, kOpLabel, id, 0, 0)`. -/
def ofId (id : Nat) : Operand_ := Operand.ofWords kOpLabel id 0 0

/-- `Label::isValid`: `_label.id != 0`. -/
def isValid (m : Operand_) : Bool := m.w1 != 0

/-- `Label::setId`. -/
def setId (m : Operand_) (id : Nat) : Operand_ := { m with w1 := id % 2 ^ 32 }

end Label

namespace Reg

open Operand_

/-- `Reg::kIdBad`, the "none or any register" sentinel id. -/
def kIdBad : Nat := 0xFF

/-- `Reg::kRegGp32`. -/
def kRegGp32 : Nat := 5

/-- `Reg(uint32_t signature, uint32_t rId)`: `Operand(Globals::Init, signature, rId, 0, 0)`. -/
def make (signature rId : Nat) : Operand_ := Operand.ofWords signature rId 0 0

/-- `Reg::isValid`: `_any.signature != 0`. -/
def isValid (m : Operand_) : Bool := m.w0 != 0

/-- `Reg::isPhysReg`: `_reg.id < kIdBad`. -/
def isPhysReg (m : Operand_) : Bool := decide (m.w1 < kIdBad)

/-- `Reg::isVirtReg`: `_reg.id > kIdBad`. -/
def isVirtReg (m : Operand_) : Bool := decide (m.w1 > kIdBad)

/-- `Reg::isSame`: compares only the first 8 bytes, `_p64[0]`. -/
def isSame (a b : Operand_) : Bool := _p64_0 a == _p64_0 b

/-- `Reg::getType`. -/
def getType (m : Operand_) : Nat := _getSignatureData m kSignatureRegTypeBits kSignatureRegTypeShift

/-- `Reg::getGroup`. -/
def getGroup (m : Operand_) : Nat := _getSignatureData m kSignatureRegGroupBits kSignatureRegGroupShift

/-- `Reg::setId`. -/
def setId (m : Operand_) (rId : Nat) : Operand_ := { m with w1 := rId % 2 ^ 32 }

end Reg

namespace Mem

open Operand_

/-- `Mem()`: the default memory operand, pointing to `[0]`. -/
def default : Operand_ := Operand.ofWords kOpMem 0 0 0

/-- `Mem::reset`: `signature = kOpMem; id = 0; _p64[1] = 0`. -/
def reset (_m : Operand_) : Operand_ := ⟨kOpMem, 0, 0, 0⟩

/-- `Mem::getBaseType`. -/
def getBaseType (m : Operand_) : Nat :=
  _getSignatureData m kSignatureMemBaseTypeBits kSignatureMemBaseTypeShift

/-- `Mem::getIndexType`. -/
def getIndexType (m : Operand_) : Nat :=
  _getSignatureData m kSignatureMemIndexTypeBits kSignatureMemIndexTypeShift

/-- `Mem::isOffset64Bit`: `getBaseType() == 0`. -/
def isOffset64Bit (m : Operand_) : Bool := getBaseType m == 0

/-- `Mem::hasBase`. -/
def hasBase (m : Operand_) : Bool := (m.w0 &&& kSignatureMemBaseTypeMask) != 0

/-- `Mem::_setBase`: write the base type into the signature and the base id into word 1. -/
def _setBase (m : Operand_) (rType rId : Nat) : Operand_ :=
  let m' := _setSignatureData m rType kSignatureMemBaseTypeBits kSignatureMemBaseTypeShift
  { m' with w1 := rId % 2 ^ 32 }

/-- `Mem::_setIndex`: write the index type into the signature and the index id into word 2. -/
def _setIndex (m : Operand_) (rType rId : Nat) : Operand_ :=
  let m' := _setSignatureData m rType kSignatureMemIndexTypeBits kSignatureMemIndexTypeShift
  { m' with w2 := rId % 2 ^ 32 }

/-- `Mem::setBase(const Reg&)`: `_setBase(base.getType(), base.getId())`. -/
def setBase (m base : Operand_) : Operand_ := _setBase m (Reg.getType base) (getId base)

/-- `Mem::setIndex(const Reg&)`: `_setIndex(index.getType(), index.getId())`. -/
def setIndex (m index : Operand_) : Operand_ := _setIndex m (Reg.getType index) (getId index)

/-- `Mem::resetBase`: `_setBase(0, 0)`. -/
def resetBase (m : Operand_) : Operand_ := _setBase m 0 0

/-- `Mem::resetIndex`: `_setIndex(0, 0)`. -/
def resetIndex (m : Operand_) : Operand_ := _setIndex m 0 0

/-- `Mem::setSize`. -/
def setSize (m : Operand_) (size : Nat) : Operand_ :=
  _setSignatureData m size kSignatureSizeBits kSignatureSizeShift

/-- `Mem::setAddrType`. -/
def setAddrType (m : Operand_) (addrType : Nat) : Operand_ :=
  _setSignatureData m addrType kSignatureMemAddrTypeBits kSignatureMemAddrTypeShift

/-- `Mem::resetAddrType`. -/
def resetAddrType (m : Operand_) : Operand_ :=
  _clearSignatureData m kSignatureMemAddrTypeBits kSignatureMemAddrTypeShift

/-- `Mem::setRegHome`: `signature |= kSignatureMemRegHomeFlag`. -/
def setRegHome (m : Operand_) : Operand_ := _addSignatureData m kSignatureMemRegHomeFlag

/-- `Mem::clearRegHome`: `signature &= ~kSignatureMemRegHomeFlag`. -/
def clearRegHome (m : Operand_) : Operand_ :=
  { m with w0 := m.w0 &&& not32 kSignatureMemRegHomeFlag }

/-- `Mem::getOffset`: in absolute-address mode (base type 0) rebuild the 64-bit
value from the displacement word (low) and the base word (high); otherwise
sign-extend the 32-bit displacement. -/
def getOffset (m : Operand_) : Int :=
  if isOffset64Bit m then toInt64 (m.w3 ||| (m.w1 <<< 32)) else toInt32 m.w3

/-- `Mem::getOffsetLo32`. -/
def getOffsetLo32 (m : Operand_) : Int := toInt32 m.w3

/-- `Mem::setOffset`: always store the low 32 bits in the displacement word; store
the high 32 bits in the base word only under the absolute-address mask. -/
def setOffset (m : Operand_) (offset : Int) : Operand_ :=
  let lo := toUInt64 offset &&& mask32
  let hi := toUInt64 offset >>> 32
  let hiMsk := IntUtils.maskFromBool (isOffset64Bit m)
  { m with w3 := lo, w1 := (hi &&& hiMsk) ||| (m.w1 &&& not32 hiMsk) }

/-- `Mem::setOffsetLo32`: `offsetLo32 = uint32_t(offset)`. -/
def setOffsetLo32 (m : Operand_) (offset : Int) : Operand_ :=
  { m with w3 := (offset % (2 ^ 32 : Int)).toNat }

/-- `Mem::addOffset`: a 64-bit carry-aware increment in absolute-address mode,
otherwise a wrapping 32-bit increment of the displacement word. -/
def addOffset (m : Operand_) (offset : Int) : Operand_ :=
  if isOffset64Bit m then
    let result := toUInt64 (offset + toInt64 (m.w3 ||| (m.w1 <<< 32)))
    { m with w3 := result &&& mask32, w1 := result >>> 32 }
  else
    { m with w3 := (m.w3 + (toUInt64 offset &&& mask32)) % 2 ^ 32 }

/-- `Mem::addOffsetLo32`: `offsetLo32 += uint32_t(offset)`. -/
def addOffsetLo32 (m : Operand_) (offset : Int) : Operand_ :=
  { m with w3 := (m.w3 + (offset % (2 ^ 32 : Int)).toNat) % 2 ^ 32 }

end Mem

namespace Imm

open Operand_

/-- `Imm(int64_t val)`: `Operand(Globals::Init, kOpImm, 0, unpackU32At0(val),
unpackU32At1(val))`.  The helpers `IntUtils::unpackU32At0/At1` are modelled from
the spec (intutils.h is not in src/): on the little-endian layout the payload's
low 32 bits land in word 2 and its high 32 bits in word 3. -/
def make (val : Int) : Operand_ :=
  Operand.ofWords kOpImm 0 (toUInt64 val &&& mask32) (toUInt64 val >>> 32)

/-- `Imm::getUInt64`: the raw 64-bit payload, `value.u64`. -/
def getUInt64 (m : Operand_) : Nat := m.w2 ||| (m.w3 <<< 32)

/-- `Imm::getInt64`: the payload reinterpreted as `int64_t`, `value.i64`. -/
def getInt64 (m : Operand_) : Int := toInt64 (getUInt64 m)

/-- `Imm::isInt8`: `IntUtils::isInt8(value.i64)`. -/
def isInt8 (m : Operand_) : Bool := IntUtils.isInt8 (getInt64 m)

/-- `Imm::isInt16`: `IntUtils::isInt16(value.i64)`. -/
def isInt16 (m : Operand_) : Bool := IntUtils.isInt16 (getInt64 m)

/-- `Imm::isInt32`: `IntUtils::isInt32(value.i64)`. -/
def isInt32 (m : Operand_) : Bool := IntUtils.isInt32 (getInt64 m)

end Imm

/-- Modelled from the spec: the typed result of `CallConv::init`.  The concrete
error-code numbering (`kErrorInvalidArgument`) lives outside src/, so only the
two outcomes the dispatcher distinguishes are represented. -/
inductive CCError where
  | ok : CCError
  | invalidArgument : CCError
deriving DecidableEq, Repr

namespace CallConv

/-- `CallConv::init` (callconv.cpp): reset the descriptor, classify `ccId` by
architecture family and delegate to that family's table builder.  The family
predicates (`CallConv::isX86Family` / `isArmFamily`) and the per-family builders
(`X86CallConvInternal::init` / `ArmCallConvInternal::init`) are declared outside
src/ and are therefore abstract parameters, modelled from the spec; the reset
descriptor state is the abstract value `resetState`. -/
def init {α : Type} (resetState : α) (isX86Family isArmFamily : Nat → Bool)
    (x86Init armInit : α → Nat → α × CCError) (ccId : Nat) : α × CCError :=
  if isX86Family ccId then x86Init resetState ccId
  else if isArmFamily ccId then armInit resetState ccId
  else (resetState, CCError.invalidArgument)

end CallConv

/-- The bit-layout catalogue: every `(bits, shift)` signature field pair defined
by `Operand_::SignatureBits`. -/
def sigFields : List (Nat × Nat) :=
  [(Operand_.kSignatureOpBits, Operand_.kSignatureOpShift),
   (Operand_.kSignatureRegTypeBits, Operand_.kSignatureRegTypeShift),
   (Operand_.kSignatureRegGroupBits, Operand_.kSignatureRegGroupShift),
   (Operand_.kSignatureMemBaseTypeBits, Operand_.kSignatureMemBaseTypeShift),
   (Operand_.kSignatureMemIndexTypeBits, Operand_.kSignatureMemIndexTypeShift),
   (Operand_.kSignatureMemBaseIndexBits, Operand_.kSignatureMemBaseIndexShift),
   (Operand_.kSignatureMemAddrTypeBits, Operand_.kSignatureMemAddrTypeShift),
   (Operand_.kSignatureMemRegHomeBits, Operand_.kSignatureMemRegHomeShift),
   (Operand_.kSignatureSizeBits, Operand_.kSignatureSizeShift)]

end Asmjit

namespace Asmjit

open Operand_

theorem mask32_eq : mask32 = 2 ^ 32 - 1 := by decide

theorem and_mask32 (x : Nat) : x &&& mask32 = x % 2 ^ 32 := by
  rw [mask32_eq]; exact Nat.and_pow_two_sub_one_eq_mod x 32

theorem shl32_lt (x n : Nat) : shl32 x n < 2 ^ 32 := Nat.mod_lt _ (by norm_num)

theorem testBit_not32 (x j : Nat) (hx : x < 2 ^ 32) :
    (not32 x).testBit j = (decide (j < 32) && !(x.testBit j)) := by
  rw [not32, mask32_eq, Nat.mod_eq_of_lt hx, Nat.testBit_xor, Nat.testBit_two_pow_sub_one]
  by_cases hj : j < 32
  · simp [hj]
  · have hxj : x.testBit j = false :=
      Nat.testBit_eq_false_of_lt (lt_of_lt_of_le hx (Nat.pow_le_pow_right (by norm_num) (by omega)))
    simp [hj, hxj]

theorem testBit_shl32 (x n j : Nat) :
    (shl32 x n).testBit j = (decide (j < 32) && (decide (j ≥ n) && x.testBit (j - n))) := by
  rw [shl32, Nat.testBit_mod_two_pow, Nat.testBit_shiftLeft]

/-- The workhorse for the signature bit-field accessors: writing a value that fits
a `2 ^ w - 1` field and reading the same field back returns the value. -/
theorem ssd_get (sig value w shift : Nat) (hv : value < 2 ^ w) (hws : shift + w ≤ 32) :
    ((((sig &&& not32 (shl32 (2 ^ w - 1) shift)) ||| shl32 value shift) >>> shift) &&& (2 ^ w - 1))
      = value := by
  apply Nat.eq_of_testBit_eq
  intro i
  rw [Nat.testBit_land, Nat.testBit_shiftRight, Nat.testBit_lor, Nat.testBit_land,
    testBit_not32 _ _ (shl32_lt _ _), testBit_shl32, testBit_shl32,
    Nat.testBit_two_pow_sub_one, Nat.testBit_two_pow_sub_one]
  by_cases hi : i < w
  · have h1 : shift + i < 32 := by omega
    have h2 : shift ≤ shift + i := Nat.le_add_right _ _
    have h3 : shift + i - shift = i := by omega
    simp [h1, h2, h3, hi]
  · have h3 : shift + i - shift = i := by omega
    have hvb : value.testBit i = false :=
      Nat.testBit_eq_false_of_lt
        (lt_of_lt_of_le hv (Nat.pow_le_pow_right (by norm_num) (by omega)))
    simp [hi, h3, hvb]

/-- Writing a signature bit field leaves every signature bit outside the field's
mask unchanged. -/
theorem ssd_outside (sig value w shift : Nat) (hv : value < 2 ^ w) :
    (((sig &&& not32 (shl32 (2 ^ w - 1) shift)) ||| shl32 value shift)
        &&& not32 (shl32 (2 ^ w - 1) shift))
      = sig &&& not32 (shl32 (2 ^ w - 1) shift) := by
  apply Nat.eq_of_testBit_eq
  intro j
  rw [Nat.testBit_land, Nat.testBit_lor, Nat.testBit_land,
    testBit_not32 _ _ (shl32_lt _ _), testBit_shl32, testBit_shl32,
    Nat.testBit_two_pow_sub_one]
  by_cases h1 : j < 32
  · by_cases h2 : shift ≤ j
    · by_cases h3 : j - shift < w
      · simp [h1, h2, h3]
      · have hvb : value.testBit (j - shift) = false :=
          Nat.testBit_eq_false_of_lt
            (lt_of_lt_of_le hv (Nat.pow_le_pow_right (by norm_num) (by omega)))
        simp [h1, h2, h3, hvb]
    · simp [h1, h2]
  · simp [h1]

/-- Every catalogue field mask is a contiguous low mask `2 ^ w - 1` whose field
fits inside the 32-bit signature word. -/
theorem sigFields_shape (bs : Nat × Nat) (hbs : bs ∈ sigFields) :
    ∃ w, bs.1 = 2 ^ w - 1 ∧ bs.2 + w ≤ 32 := by
  fin_cases hbs
  · exact ⟨3, by decide⟩
  · exact ⟨5, by decide⟩
  · exact ⟨4, by decide⟩
  · exact ⟨5, by decide⟩
  · exact ⟨5, by decide⟩
  · exact ⟨10, by decide⟩
  · exact ⟨2, by decide⟩
  · exact ⟨1, by decide⟩
  · exact ⟨8, by decide⟩

/-- C3 -- `unpackId` undoes `packId` on every 32-bit id; `isPackedId` accepts every
packed valid real id and rejects the whole physical/sentinel range `[0, 255]`. -/
theorem packId_unpackId_spec (id x : Nat) :
    (id < 2 ^ 32 → unpackId (packId id) = id) ∧
    (id < kPackedIdCount → isPackedId (packId id) = true) ∧
    (x ≤ 255 → isPackedId x = false) := by
  refine ⟨fun h => ?_, fun h => ?_, fun h => ?_⟩
  · unfold unpackId packId kPackedIdMin
    omega
  · unfold isPackedId packId kPackedIdCount kPackedIdMax kPackedIdMin at *
    simp only [decide_eq_true_eq]
    omega
  · unfold isPackedId kPackedIdCount kPackedIdMax kPackedIdMin
    simp only [decide_eq_false_iff_not]
    omega

/-- C3 witness: the round trip and both range checks at concrete inputs. -/
theorem packId_unpackId_witness :
    unpackId (packId 4096) = 4096 ∧ isPackedId (packId 4096) = true ∧ isPackedId 255 = false :=
  ⟨(packId_unpackId_spec 4096 255).1 (by decide),
   (packId_unpackId_spec 4096 255).2.1 (by decide),
   (packId_unpackId_spec 4096 255).2.2 (by decide)⟩

/-- C2 counterexample: a 32-bit general-purpose register operand with id 255 (the
`kIdBad` sentinel) reports `isPhysReg() = false`, contradicting the claim that
id 255 reports `isPhysReg() = true`. -/
theorem reg_id255_counterexample :
    Reg.isPhysReg (Reg.make 67108905 255) = false ∧
    Operand_.isPhysReg (Reg.make 67108905 255) = false := by
  constructor <;> decide

/-- C2 amended: id 255 is the `kIdBad` sentinel and is in neither class
(`isPhysReg` and `isVirtReg` are both false); id 254 is physical and id 256 is
virtual; the `Operand_` variants agree on the sentinel. -/
theorem reg_id_boundary_amended (s : Nat) :
    Reg.isPhysReg (Reg.make s 255) = false ∧
    Reg.isVirtReg (Reg.make s 255) = false ∧
    Reg.isPhysReg (Reg.make s 254) = true ∧
    Reg.isVirtReg (Reg.make s 254) = false ∧
    Reg.isPhysReg (Reg.make s 256) = false ∧
    Reg.isVirtReg (Reg.make s 256) = true ∧
    Operand_.isPhysReg (Reg.make s 255) = false ∧
    Operand_.isVirtReg (Reg.make s 255) = false := by
  have h255 : (255 : Nat) % 2 ^ 32 = 255 := by norm_num
  have h254 : (254 : Nat) % 2 ^ 32 = 254 := by norm_num
  have h256 : (256 : Nat) % 2 ^ 32 = 256 := by norm_num
  refine ⟨?_, ?_, ?_, ?_, ?_, ?_, ?_, ?_⟩ <;>
    simp [Reg.make, Operand.ofWords, Reg.isPhysReg, Reg.isVirtReg, Reg.kIdBad,
      Operand_.isPhysReg, Operand_.isVirtReg, h255, h254, h256]

/-- C6 counterexample: the raw-word constructor builds an operand with zero
signature but nonzero id; `isNone()` holds for it although it is not bitwise
equal to the zero-filled record. -/
theorem operand_isNone_counterexample :
    Operand_.isNone (Operand.ofWords 0 1 0 0) = true ∧
    Operand.ofWords 0 1 0 0 ≠ Operand.ofWords 0 0 0 0 := by
  constructor <;> decide

/-- C6 amended: the default-constructed operand is the zero-filled record and
satisfies `isNone()`; `isNone()` holds exactly when the signature word is zero
(words 1-3 are not inspected). -/
theorem operand_none_amended (m : Operand_) :
    Operand.default = (⟨0, 0, 0, 0⟩ : Operand_) ∧
    Operand_.isNone Operand.default = true ∧
    (Operand_.isNone m = true ↔ m.w0 = 0) := by
  refine ⟨by decide, by decide, ?_⟩
  simp [Operand_.isNone]

/-- C9 -- `Reg::isPhysReg` and `Reg::isVirtReg` depend only on the id word and
ignore the type tag: any two operands with equal word 1 agree on both, and the
default-constructed (none) register reports `isPhysReg() = true` while
`isValid() = false` and `isReg() = false`. -/
theorem reg_isPhysReg_id_only (m m' : Operand_) (h : m.w1 = m'.w1) :
    Reg.isPhysReg m = Reg.isPhysReg m' ∧
    Reg.isVirtReg m = Reg.isVirtReg m' ∧
    Reg.isPhysReg (⟨0, 0, 0, 0⟩ : Operand_) = true ∧
    Reg.isValid (⟨0, 0, 0, 0⟩ : Operand_) = false ∧
    Operand_.isReg (⟨0, 0, 0, 0⟩ : Operand_) = false :=
  ⟨by simp [Reg.isPhysReg, h], by simp [Reg.isVirtReg, h], by decide, by decide, by decide⟩

/-- C5 -- for every catalogue field and every value that fits the field,
`_setSignatureData` followed by `_getSignatureData` returns the value, all
signature bits outside the field's mask are unchanged, and the other three
words of the operand are unchanged. -/
theorem setSignatureData_field_isolation (m : Operand_) (bs : Nat × Nat)
    (hbs : bs ∈ sigFields) (value : Nat) (hv : value ≤ bs.1) :
    _getSignatureData (_setSignatureData m value bs.1 bs.2) bs.1 bs.2 = value ∧
    (_setSignatureData m value bs.1 bs.2).w0 &&& not32 (shl32 bs.1 bs.2)
      = m.w0 &&& not32 (shl32 bs.1 bs.2) ∧
    (_setSignatureData m value bs.1 bs.2).w1 = m.w1 ∧
    (_setSignatureData m value bs.1 bs.2).w2 = m.w2 ∧
    (_setSignatureData m value bs.1 bs.2).w3 = m.w3 := by
  obtain ⟨w, hw, hws⟩ := sigFields_shape bs hbs
  have hpos : 0 < 2 ^ w := Nat.pos_pow_of_pos w (by norm_num)
  have hv' : value < 2 ^ w := by omega
  refine ⟨?_, ?_, rfl, rfl, rfl⟩
  · show ((((m.w0 &&& not32 (shl32 bs.1 bs.2)) ||| shl32 value bs.2) >>> bs.2) &&& bs.1) = value
    rw [hw]
    exact ssd_get m.w0 value w bs.2 hv' hws
  · show (((m.w0 &&& not32 (shl32 bs.1 bs.2)) ||| shl32 value bs.2) &&& not32 (shl32 bs.1 bs.2))
        = m.w0 &&& not32 (shl32 bs.1 bs.2)
    rw [hw]
    exact ssd_outside m.w0 value w bs.2 hv'

/-- C5 witness: the register-type field round trip at a concrete operand. -/
theorem setSignatureData_field_isolation_witness :
    _getSignatureData (_setSignatureData ⟨0, 0, 0, 0⟩ 5 0x1F 3) 0x1F 3 = 5 ∧
    (_setSignatureData (⟨9, 0, 0, 0⟩ : Operand_) 5 0x1F 3).w0 &&& not32 (shl32 0x1F 3)
      = (9 : Nat) &&& not32 (shl32 0x1F 3) :=
  ⟨(setSignatureData_field_isolation ⟨0, 0, 0, 0⟩ (0x1F, 3) (by decide) 5 (by decide)).1,
   (setSignatureData_field_isolation ⟨9, 0, 0, 0⟩ (0x1F, 3) (by decide) 5 (by decide)).2.1⟩

/-- C7 -- `isEqual` compares both 64-bit halves (all 16 bytes), `isSame` only the
first half (8 bytes), and on register operands whose upper 8 bytes are zero the
two coincide. -/
theorem reg_isSame_isEqual (a b : Operand_) (ha2 : a.w2 = 0) (ha3 : a.w3 = 0)
    (hb2 : b.w2 = 0) (hb3 : b.w3 = 0) :
    Reg.isSame a b = Operand_.isEqual a b ∧
    Operand_.isEqual a b = ((_p64_0 a == _p64_0 b) && (_p64_1 a == _p64_1 b)) ∧
    Reg.isSame a b = (_p64_0 a == _p64_0 b) := by
  refine ⟨?_, rfl, rfl⟩
  simp [Reg.isSame, Operand_.isEqual, _p64_1, ha2, ha3, hb2, hb3]

/-- C7 witness: two concrete register operands with zero upper halves. -/
theorem reg_isSame_isEqual_witness :
    Reg.isSame (⟨67108905, 3, 0, 0⟩ : Operand_) (⟨67108905, 4, 0, 0⟩ : Operand_)
      = Operand_.isEqual (⟨67108905, 3, 0, 0⟩ : Operand_) (⟨67108905, 4, 0, 0⟩ : Operand_) :=
  (reg_isSame_isEqual ⟨67108905, 3, 0, 0⟩ ⟨67108905, 4, 0, 0⟩ rfl rfl rfl rfl).1

theorem low3_and_or (x a b : Nat) (ha : ∀ i, i < 3 → a.testBit i = true)
    (hb : ∀ i, i < 3 → b.testBit i = false) :
    ((x &&& a) ||| b) &&& 7 = x &&& 7 := by
  have h7 : (7 : Nat) = 2 ^ 3 - 1 := by norm_num
  apply Nat.eq_of_testBit_eq
  intro i
  rw [h7, Nat.testBit_land, Nat.testBit_land, Nat.testBit_lor, Nat.testBit_land,
    Nat.testBit_two_pow_sub_one]
  by_cases hi : i < 3
  · simp [hi, ha i hi, hb i hi]
  · simp [hi]

theorem low3_or (x b : Nat) (hb : ∀ i, i < 3 → b.testBit i = false) :
    (x ||| b) &&& 7 = x &&& 7 := by
  have h7 : (7 : Nat) = 2 ^ 3 - 1 := by norm_num
  apply Nat.eq_of_testBit_eq
  intro i
  rw [h7, Nat.testBit_land, Nat.testBit_lor, Nat.testBit_land, Nat.testBit_two_pow_sub_one]
  by_cases hi : i < 3
  · simp [hi, hb i hi]
  · simp [hi]

theorem low3_and (x a : Nat) (ha : ∀ i, i < 3 → a.testBit i = true) :
    (x &&& a) &&& 7 = x &&& 7 := by
  have h7 : (7 : Nat) = 2 ^ 3 - 1 := by norm_num
  apply Nat.eq_of_testBit_eq
  intro i
  rw [h7, Nat.testBit_land, Nat.testBit_land, Nat.testBit_land, Nat.testBit_two_pow_sub_one]
  by_cases hi : i < 3
  · simp [hi, ha i hi]
  · simp [hi]

theorem low3_not32_shl32 (bits shift : Nat) (h : 3 ≤ shift) :
    ∀ i, i < 3 → (not32 (shl32 bits shift)).testBit i = true := by
  intro i hi
  rw [testBit_not32 _ _ (shl32_lt _ _), testBit_shl32]
  have h1 : i < 32 := by omega
  have h2 : ¬(i ≥ shift) := by omega
  simp [h1, h2]

theorem low3_shl32 (v shift : Nat) (h : 3 ≤ shift) :
    ∀ i, i < 3 → (shl32 v shift).testBit i = false := by
  intro i hi
  rw [testBit_shl32]
  have h2 : ¬(i ≥ shift) := by omega
  simp [h2]

/-- `getOp` reads the low 3 bits of the signature word. -/
theorem getOp_eq_and7 (m : Operand_) : getOp m = m.w0 &&& 7 := by
  show (m.w0 >>> 0) &&& 7 = m.w0 &&& 7
  rw [Nat.shiftRight_zero]

/-- `_setSignatureData` on a field whose shift is at least 3 never touches the
3-bit operand type tag. -/
theorem getOp_ssd (m : Operand_) (value bits shift : Nat) (h : 3 ≤ shift) :
    getOp (_setSignatureData m value bits shift) = getOp m := by
  rw [getOp_eq_and7, getOp_eq_and7]
  exact low3_and_or m.w0 _ _ (low3_not32_shl32 bits shift h) (low3_shl32 value shift h)

/-- `_clearSignatureData` on a field whose shift is at least 3 never touches the
3-bit operand type tag. -/
theorem getOp_csd (m : Operand_) (bits shift : Nat) (h : 3 ≤ shift) :
    getOp (_clearSignatureData m bits shift) = getOp m := by
  rw [getOp_eq_and7, getOp_eq_and7]
  exact low3_and m.w0 _ (low3_not32_shl32 bits shift h)

/-- `Mem::setRegHome` only sets bit 15 and never touches the type tag. -/
theorem getOp_setRegHome (m : Operand_) : getOp (Mem.setRegHome m) = getOp m := by
  rw [getOp_eq_and7, getOp_eq_and7]
  refine low3_or m.w0 _ ?_
  intro i hi
  have h2 : kSignatureMemRegHomeFlag = 2 ^ 15 := by decide
  rw [h2, Nat.testBit_two_pow]
  simp only [decide_eq_false_iff_not]
  omega

/-- `Mem::clearRegHome` only clears bit 15 and never touches the type tag. -/
theorem getOp_clearRegHome (m : Operand_) : getOp (Mem.clearRegHome m) = getOp m := by
  rw [getOp_eq_and7, getOp_eq_and7]
  refine low3_and m.w0 _ ?_
  intro i hi
  rw [testBit_not32 _ _ (by decide : kSignatureMemRegHomeFlag < 2 ^ 32)]
  have h2 : kSignatureMemRegHomeFlag = 2 ^ 15 := by decide
  have h1 : i < 32 := by omega
  rw [h2, Nat.testBit_two_pow]
  simp only [h1, decide_true_eq_true, Bool.true_and, decide_eq_true_eq, Bool.not_eq_true',
    decide_eq_false_iff_not]
  omega

/-- C10 -- every `Mem` mutator preserves the memory type tag, and `Mem::reset`
produces the default `[0]` memory operand (signature `kOpMem`, all other words
zero), not the all-zero none operand. -/
theorem mem_mutators_preserve_tag (m : Operand_) (h : getOp m = kOpMem) :
    Mem.reset m = (⟨kOpMem, 0, 0, 0⟩ : Operand_) ∧
    Mem.reset m = Mem.default ∧
    getOp (Mem.reset m) = kOpMem ∧
    (∀ rType rId, getOp (Mem._setBase m rType rId) = kOpMem) ∧
    (∀ rType rId, getOp (Mem._setIndex m rType rId) = kOpMem) ∧
    getOp (Mem.resetBase m) = kOpMem ∧
    getOp (Mem.resetIndex m) = kOpMem ∧
    (∀ off : Int, getOp (Mem.setOffset m off) = kOpMem) ∧
    (∀ off : Int, getOp (Mem.setOffsetLo32 m off) = kOpMem) ∧
    (∀ off : Int, getOp (Mem.addOffset m off) = kOpMem) ∧
    (∀ off : Int, getOp (Mem.addOffsetLo32 m off) = kOpMem) ∧
    (∀ size, getOp (Mem.setSize m size) = kOpMem) ∧
    (∀ t, getOp (Mem.setAddrType m t) = kOpMem) ∧
    getOp (Mem.resetAddrType m) = kOpMem ∧
    getOp (Mem.setRegHome m) = kOpMem ∧
    getOp (Mem.clearRegHome m) = kOpMem := by
  have hsb : ∀ rType rId, getOp (Mem._setBase m rType rId) = kOpMem := by
    intro rType rId
    show getOp (_setSignatureData m rType kSignatureMemBaseTypeBits kSignatureMemBaseTypeShift)
      = kOpMem
    rw [getOp_ssd m rType _ _ (by decide)]
    exact h
  have hsi : ∀ rType rId, getOp (Mem._setIndex m rType rId) = kOpMem := by
    intro rType rId
    show getOp (_setSignatureData m rType kSignatureMemIndexTypeBits kSignatureMemIndexTypeShift)
      = kOpMem
    rw [getOp_ssd m rType _ _ (by decide)]
    exact h
  have hreset : getOp (Mem.reset m) = kOpMem := by
    show getOp (⟨kOpMem, 0, 0, 0⟩ : Operand_) = kOpMem
    decide
  refine ⟨rfl, rfl, hreset, hsb, hsi, hsb 0 0, hsi 0 0, fun off => h, fun off => h,
    ?_, fun off => h, ?_, ?_, ?_, ?_, ?_⟩
  · intro off
    unfold Mem.addOffset
    split <;> exact h
  · intro size
    exact (getOp_ssd m size _ _ (by decide)).trans h
  · intro t
    exact (getOp_ssd m t _ _ (by decide)).trans h
  · exact (getOp_csd m _ _ (by decide)).trans h
  · exact (getOp_setRegHome m).trans h
  · exact (getOp_clearRegHome m).trans h

/-- C10 witness: the tag is preserved across concrete mutations of the default
memory operand and `reset` restores the default. -/
theorem mem_mutators_preserve_tag_witness :
    getOp (Mem.setSize (⟨kOpMem, 0, 0, 0⟩ : Operand_) 4) = kOpMem ∧
    Mem.reset (⟨kOpMem, 77, 5, 6⟩ : Operand_) = Mem.default ∧
    (∀ rId, getOp (Mem._setBase (⟨kOpMem, 0, 0, 0⟩ : Operand_) 5 rId) = kOpMem) :=
  ⟨(mem_mutators_preserve_tag ⟨kOpMem, 0, 0, 0⟩ (by decide)).2.2.2.2.2.2.2.2.2.2.2.2.1 4,
   (mem_mutators_preserve_tag ⟨kOpMem, 77, 5, 6⟩ (by decide)).2.1,
   fun rId => (mem_mutators_preserve_tag ⟨kOpMem, 0, 0, 0⟩ (by decide)).2.2.2.1 5 rId⟩

theorem toUInt64_lt (v : Int) : toUInt64 v < 2 ^ 64 := by
  unfold toUInt64
  omega

theorem not32_mask32 : not32 mask32 = 0 := by decide

theorem not32_zero : not32 0 = mask32 := by decide

theorem lor_shl32_eq_add (a b : Nat) (ha : a < 2 ^ 32) : a ||| (b <<< 32) = a + 2 ^ 32 * b := by
  have hcomm : a + 2 ^ 32 * b = 2 ^ 32 * b + a := by omega
  rw [hcomm]
  apply Nat.eq_of_testBit_eq
  intro j
  rw [Nat.testBit_lor, Nat.testBit_shiftLeft, Nat.testBit_mul_pow_two_add b ha j]
  by_cases hj : j < 32
  · have h2 : ¬(j ≥ 32) := by omega
    simp [hj, h2]
  · have ha' : a.testBit j = false :=
      Nat.testBit_eq_false_of_lt (lt_of_lt_of_le ha (Nat.pow_le_pow_right (by norm_num) (by omega)))
    have h2 : j ≥ 32 := by omega
    simp [hj, h2, ha']

theorem toInt64_toUInt64 (v : Int) (h1 : -(2 ^ 63) ≤ v) (h2 : v < 2 ^ 63) :
    toInt64 (toUInt64 v) = v := by
  unfold toInt64 toUInt64
  split <;> omega

theorem toInt32_mod (n : Nat) : toInt32 (n % 2 ^ 32) = toInt32 n := by
  unfold toInt32
  rw [Nat.mod_mod_of_dvd n (dvd_refl (2 ^ 32))]

/-- C1 -- `setOffset` in absolute-address mode (base type 0) stores the low 32
bits in the displacement word and the high 32 bits in the base/id word, and
`getOffset` recovers the full 64-bit value; with a base register present,
`setOffset` writes only the low 32 bits, leaves the base/id word unchanged, and
`getOffset` returns the sign-extension of those low 32 bits. -/
theorem mem_setOffset_getOffset (m : Operand_) (v : Int)
    (h1 : -(2 ^ 63) ≤ v) (h2 : v < 2 ^ 63) :
    (Mem.getBaseType m = 0 →
       (Mem.setOffset m v).w3 = toUInt64 v % 2 ^ 32 ∧
       (Mem.setOffset m v).w1 = toUInt64 v / 2 ^ 32 ∧
       Mem.getOffset (Mem.setOffset m v) = v) ∧
    (Mem.getBaseType m ≠ 0 → m.w1 < 2 ^ 32 →
       (Mem.setOffset m v).w3 = toUInt64 v % 2 ^ 32 ∧
       (Mem.setOffset m v).w1 = m.w1 ∧
       Mem.getOffset (Mem.setOffset m v) = toInt32 (toUInt64 v)) := by
  have hu : toUInt64 v < 2 ^ 64 := toUInt64_lt v
  have hdiv : toUInt64 v >>> 32 = toUInt64 v / 2 ^ 32 := Nat.shiftRight_eq_div_pow _ _
  have hdivlt : toUInt64 v / 2 ^ 32 < 2 ^ 32 := by omega
  have hw3 : (Mem.setOffset m v).w3 = toUInt64 v % 2 ^ 32 := by
    show toUInt64 v &&& mask32 = toUInt64 v % 2 ^ 32
    exact and_mask32 _
  constructor
  · intro hb
    have hb' : Mem.isOffset64Bit m = true := by
      simp only [Mem.isOffset64Bit, hb]
      decide
    have hw1 : (Mem.setOffset m v).w1 = toUInt64 v / 2 ^ 32 := by
      show ((toUInt64 v >>> 32) &&& IntUtils.maskFromBool (Mem.isOffset64Bit m))
          ||| (m.w1 &&& not32 (IntUtils.maskFromBool (Mem.isOffset64Bit m)))
        = toUInt64 v / 2 ^ 32
      rw [hb']
      show ((toUInt64 v >>> 32) &&& mask32) ||| (m.w1 &&& not32 mask32) = toUInt64 v / 2 ^ 32
      rw [and_mask32, not32_mask32, Nat.and_zero, Nat.or_zero, hdiv, Nat.mod_eq_of_lt hdivlt]
    have hoff : Mem.isOffset64Bit (Mem.setOffset m v) = true := hb'
    refine ⟨hw3, hw1, ?_⟩
    simp only [Mem.getOffset, hoff, if_true]
    rw [hw3, hw1, lor_shl32_eq_add _ _ (Nat.mod_lt _ (by norm_num)), Nat.mod_add_div]
    exact toInt64_toUInt64 v h1 h2
  · intro hb hw1lt
    have hb' : Mem.isOffset64Bit m = false := by
      simp only [Mem.isOffset64Bit, beq_eq_false_iff_ne, ne_eq]
      exact hb
    have hw1 : (Mem.setOffset m v).w1 = m.w1 := by
      show ((toUInt64 v >>> 32) &&& IntUtils.maskFromBool (Mem.isOffset64Bit m))
          ||| (m.w1 &&& not32 (IntUtils.maskFromBool (Mem.isOffset64Bit m)))
        = m.w1
      rw [hb']
      show ((toUInt64 v >>> 32) &&& 0) ||| (m.w1 &&& not32 0) = m.w1
      rw [Nat.and_zero, Nat.zero_or, not32_zero, and_mask32, Nat.mod_eq_of_lt hw1lt]
    have hoff : Mem.isOffset64Bit (Mem.setOffset m v) = false := hb'
    refine ⟨hw3, hw1, ?_⟩
    simp only [Mem.getOffset, hoff, Bool.false_eq_true, if_false]
    rw [hw3, toInt32_mod]

/-- C1 witness: the full 64-bit round trip on a baseless memory operand, and the
lossy low-32-bit write when a base register (type 5) is present. -/
theorem mem_setOffset_getOffset_witness :
    Mem.getOffset (Mem.setOffset (⟨2, 0, 0, 0⟩ : Operand_) 4294967296) = 4294967296 ∧
    (Mem.setOffset (⟨42, 7, 0, 0⟩ : Operand_) 4294967296).w1 = 7 ∧
    Mem.getOffset (Mem.setOffset (⟨42, 7, 0, 0⟩ : Operand_) 4294967296) = 0 :=
  ⟨((mem_setOffset_getOffset ⟨2, 0, 0, 0⟩ 4294967296 (by decide) (by decide)).1
      (by decide)).2.2,
   ((mem_setOffset_getOffset ⟨42, 7, 0, 0⟩ 4294967296 (by decide) (by decide)).2
      (by decide) (by decide)).2.1,
   (((mem_setOffset_getOffset ⟨42, 7, 0, 0⟩ 4294967296 (by decide) (by decide)).2
      (by decide) (by decide)).2.2).trans (by decide)⟩

theorem imm_getInt64_make (v : Int) (h1 : -(2 ^ 63) ≤ v) (h2 : v < 2 ^ 63) :
    Imm.getInt64 (Imm.make v) = v := by
  have hdivlt : toUInt64 v / 2 ^ 32 < 2 ^ 32 := by
    have := toUInt64_lt v
    omega
  show toInt64 ((toUInt64 v &&& mask32) % 2 ^ 32 ||| (((toUInt64 v >>> 32) % 2 ^ 32) <<< 32)) = v
  rw [and_mask32, Nat.mod_mod_of_dvd _ (dvd_refl (2 ^ 32)), Nat.shiftRight_eq_div_pow,
    Nat.mod_eq_of_lt hdivlt, lor_shl32_eq_add _ _ (Nat.mod_lt _ (by norm_num)), Nat.mod_add_div]
  exact toInt64_toUInt64 v h1 h2

/-- C8 -- the width predicates of an immediate are pure range tests on the stored
signed 64-bit value: constructing an immediate from any in-range value and
querying `isInt8` / `isInt16` / `isInt32` is exactly the corresponding signed
range test on that value. -/
theorem imm_width_predicates (v : Int) (h1 : -(2 ^ 63) ≤ v) (h2 : v < 2 ^ 63) :
    Imm.getInt64 (Imm.make v) = v ∧
    Imm.isInt8 (Imm.make v) = decide (-128 ≤ v ∧ v ≤ 127) ∧
    Imm.isInt16 (Imm.make v) = decide (-32768 ≤ v ∧ v ≤ 32767) ∧
    Imm.isInt32 (Imm.make v) = decide (-2147483648 ≤ v ∧ v ≤ 2147483647) := by
  have hkey : Imm.getInt64 (Imm.make v) = v := imm_getInt64_make v h1 h2
  exact ⟨hkey, by simp only [Imm.isInt8, IntUtils.isInt8, hkey],
    by simp only [Imm.isInt16, IntUtils.isInt16, hkey],
    by simp only [Imm.isInt32, IntUtils.isInt32, hkey]⟩

/-- C8 witness: 127 passes `isInt8`; 128 fails `isInt8` but passes `isInt16`;
-129 fails `isInt8` but passes `isInt16`. -/
theorem imm_width_predicates_witness :
    Imm.isInt8 (Imm.make 127) = true ∧ Imm.isInt8 (Imm.make 128) = false ∧
    Imm.isInt16 (Imm.make 128) = true ∧ Imm.isInt8 (Imm.make (-129)) = false ∧
    Imm.isInt16 (Imm.make (-129)) = true :=
  ⟨((imm_width_predicates 127 (by decide) (by decide)).2.1).trans (by decide),
   ((imm_width_predicates 128 (by decide) (by decide)).2.1).trans (by decide),
   ((imm_width_predicates 128 (by decide) (by decide)).2.2.1).trans (by decide),
   ((imm_width_predicates (-129) (by decide) (by decide)).2.1).trans (by decide),
   ((imm_width_predicates (-129) (by decide) (by decide)).2.2.1).trans (by decide)⟩

/-- C4 -- when neither compiled-in architecture family recognizes the
calling-convention id, `CallConv::init` returns `InvalidArgument` and the
descriptor is exactly the reset state (no field is modified after the initial
`reset()`). -/
theorem callConv_init_invalid {α : Type} (resetState : α) (fx fa : Nat → Bool)
    (ix ia : α → Nat → α × CCError) (ccId : Nat) (hx : fx ccId = false) (ha : fa ccId = false) :
    CallConv.init resetState fx fa ix ia ccId = (resetState, CCError.invalidArgument) := by
  simp [CallConv.init, hx, ha]

/-- C4 witness: a concrete descriptor type and family predicates that both reject
the id. -/
theorem callConv_init_invalid_witness :
    CallConv.init (0 : Nat) (fun _ => false) (fun _ => false)
      (fun s i => (s + i, CCError.ok)) (fun s i => (s + 2 * i, CCError.ok)) 99
      = (0, CCError.invalidArgument) :=
  callConv_init_invalid 0 (fun _ => false) (fun _ => false)
    (fun s i => (s + i, CCError.ok)) (fun s i => (s + 2 * i, CCError.ok)) 99 rfl rfl

/-- C9 witness: the id-only dependence applied to two operands with different
signatures and the concrete default register facts. -/
theorem reg_isPhysReg_id_only_witness :
    Reg.isPhysReg (⟨0, 5, 0, 0⟩ : Operand_) = Reg.isPhysReg (⟨67108905, 5, 9, 9⟩ : Operand_) ∧
    Reg.isPhysReg (⟨0, 0, 0, 0⟩ : Operand_) = true :=
  ⟨(reg_isPhysReg_id_only ⟨0, 5, 0, 0⟩ ⟨67108905, 5, 9, 9⟩ rfl).1,
   (reg_isPhysReg_id_only ⟨0, 5, 0, 0⟩ ⟨67108905, 5, 9, 9⟩ rfl).2.2.1⟩

end Asmjit
